import Mathlib

/-!
Shallow embedding of the WebSocket engine in `src/ws.rs` of Websocket-rs.
Bytes are modelled as `Nat` values below 256; byte buffers and slices as
`List Nat`.  Rust `u8` arithmetic that can wrap carries an explicit
`&&& 255`.  Fallible paths are explicit: a Rust panic (out-of-bounds index
or a failed `assert!`) is modelled as a dedicated `crash` outcome or as
`none`, and `Result<_, Error>` becomes `Except WsError _`.
-/

/-- Model of the repository's `Error` enum (`src/ws.rs`).  `IoError`
abstracts away the carried `std::io::Error` value. -/
inductive WsError where
  | ioError : WsError
  | websocketError (msg : String) : WsError
deriving DecidableEq, Repr

/-- Model of `Message` (`src/ws.rs`).  The `Text` variant's `String` is
represented by its UTF-8 bytes. -/
inductive Message where
  | text (data : List Nat) : Message
  | binary (data : List Nat) : Message
  | close (code : Option Nat) : Message
deriving DecidableEq, Repr

/-- Model of `Fragment` (`src/ws.rs`): the raw frame bytes plus the offset
where the payload starts. -/
structure Fragment where
  bytes : List Nat
  payload_offset : Nat
deriving DecidableEq, Repr

/-- `Fragment::payload`: `&self.bytes[self.payload_offset..]`. -/
def Fragment.payload (f : Fragment) : List Nat :=
  f.bytes.drop f.payload_offset

/-- `Fragment::is_fin`: `(self.bytes[0] >> 7) != 0`. -/
def Fragment.is_fin (f : Fragment) : Bool :=
  (f.bytes.headD 0) >>> 7 != 0

/-- `Fragment::opcode`: `self.bytes[0] & 0xF`. -/
def Fragment.opcode (f : Fragment) : Nat :=
  (f.bytes.headD 0) &&& 0xF

/-- `Fragment::is_control_frame`: `(self.opcode() >> 3) != 0`. -/
def Fragment.is_control_frame (f : Fragment) : Bool :=
  f.opcode >>> 3 != 0

/-- Model of `IncompleteMessage` (`src/ws.rs`). -/
structure IncompleteMessage where
  opcode : Nat
  bytes : List Nat
deriving DecidableEq, Repr

/-- `IncompleteFragment::MIN_SIZE`. -/
def minSize : Nat := 2

/-- `IncompleteFragment::is_masked`: the parser state is the buffered byte
list `st`; returns `none` when fewer than two bytes are buffered. -/
def is_masked (st : List Nat) : Option Bool :=
  if st.length < 2 then none
  else some ((st.getD 1 0) >>> 7 != 0)

/-- `IncompleteFragment::provisional_payload_length`: low 7 bits of byte 1. -/
def provisional_payload_length (st : List Nat) : Option Nat :=
  if st.length < 2 then none
  else some ((st.getD 1 0) &&& 0x7F)

/-- `IncompleteFragment::get_length_till_end_of_payload`: where the
(extended) length field ends, judged from the provisional length byte. -/
def get_length_till_end_of_payload (st : List Nat) : Option Nat :=
  match provisional_payload_length st with
  | none => none
  | some pv =>
      some (if pv = 126 then minSize + 2 else if pv = 127 then minSize + 8 else minSize)

/-- `IncompleteFragment::try_append_nbytes`.  The source loop tests
`bytes.len() == 0` before indexing `bytes[i]`, but never shrinks the
slice inside the loop; so when the slice is non-empty but shorter than
`n`, the index `bytes[bytes.len()]` is out of bounds and the function
panics (`none` here).  Otherwise it either consumes nothing and reports
`false` (empty slice), or consumes exactly `n` bytes and reports `true`. -/
def try_append_nbytes (st data : List Nat) (n : Nat) : Option (Bool × List Nat × List Nat) :=
  if n = 0 then some (true, st, data)
  else if data.length = 0 then some (false, st, data)
  else if data.length < n then none
  else some (true, st ++ data.take n, data.drop n)

/-- Big-endian `u64::from_be_bytes` over a byte list. -/
def u64_from_be (bs : List Nat) : Nat :=
  bs.foldl (fun acc b => acc * 256 + b) 0

/-- `IncompleteFragment::payload_len`: decode the (possibly extended)
payload length once enough header bytes are buffered. -/
def payload_len (st : List Nat) : Option Nat :=
  match get_length_till_end_of_payload st with
  | none => none
  | some ple =>
      if st.length < ple then none
      else
        match provisional_payload_length st with
        | none => none
        | some pv =>
            if pv = 126 then some ((st.getD 2 0) * 256 + st.getD 3 0)
            else if pv = 127 then some (u64_from_be ((st.drop 2).take 8))
            else some pv

/-- `IncompleteFragment::get_mask`: the 4 mask bytes, available only once
payload bytes beyond the mask have been buffered (note the source's
`<=` comparison). -/
def get_mask (st : List Nat) : Option (List Nat) :=
  match get_length_till_end_of_payload st with
  | none => none
  | some ple =>
      if st.length ≤ ple + 4 then none
      else
        match is_masked st with
        | some true => some ((st.drop ple).take 4)
        | _ => none

/-- XOR-unmasking loop from `IncompleteFragment::append`:
`payload_data[i] ^= mask[i % 4]`, with `i` counting from `i0`. -/
def maskBytes (mask : List Nat) (i0 : Nat) : List Nat → List Nat
  | [] => []
  | b :: rest => (b ^^^ mask.getD (i0 % 4) 0) :: maskBytes mask (i0 + 1) rest

/-- Outcome of one `IncompleteFragment::append` call.  `crash` is a Rust
panic (out-of-bounds index or failed `assert!`); `pending` is `Ok(None)`
with the new buffered state and the remaining input slice; `done` is
`Ok(Some(fragment))` (the state resets to `[]` via `mem::take`). -/
inductive FragStep where
  | crash : FragStep
  | pending (st rest : List Nat) : FragStep
  | done (frag : Fragment) (rest : List Nat) : FragStep
deriving DecidableEq, Repr

/-- Model of `IncompleteFragment::append` (`src/ws.rs` lines 226-292),
staged exactly as the source: 2 header bytes, extended length, mask,
payload, then in-place unmasking.  The source's
`assert!(self.bytes.len() < end_of_fragment)` and the recomputed
`assert!(end_of_mask + self.payload_len().unwrap() == self.bytes.len())`
are modelled as `crash` when violated. -/
def fragAppend (st0 data0 : List Nat) : FragStep :=
  match (if st0.length < minSize then try_append_nbytes st0 data0 (minSize - st0.length)
         else some (true, st0, data0)) with
  | none => .crash
  | some (false, st, rest) => .pending st rest
  | some (true, st1, d1) =>
    match get_length_till_end_of_payload st1 with
    | none => .crash
    | some till =>
      match (if st1.length < till then try_append_nbytes st1 d1 (till - st1.length)
             else some (true, st1, d1)) with
      | none => .crash
      | some (false, st, rest) => .pending st rest
      | some (true, st2, d2) =>
        match is_masked st2 with
        | none => .crash
        | some masked =>
          let eom := if masked then till + 4 else till
          match (if masked then
                   (if st2.length < eom then try_append_nbytes st2 d2 (eom - st2.length)
                    else some (true, st2, d2))
                 else some (true, st2, d2)) with
          | none => .crash
          | some (false, st, rest) => .pending st rest
          | some (true, st3, d3) =>
            match payload_len st3 with
            | none => .crash
            | some pl =>
              if st3.length < eom + pl then
                match try_append_nbytes st3 d3 (eom + pl - st3.length) with
                | none => .crash
                | some (false, st, rest) => .pending st rest
                | some (true, st4, d4) =>
                  match payload_len st4 with
                  | none => .crash
                  | some pl2 =>
                    if eom + pl2 = st4.length then
                      let outBytes :=
                        match get_mask st4 with
                        | some mask => st4.take eom ++ maskBytes mask 0 (st4.drop eom)
                        | none => st4
                      .done ⟨outBytes, eom⟩ d4
                    else .crash
              else .crash

/-- `IncompleteMessage::accepts_opcode` (`src/ws.rs` lines 315-328). -/
def accepts_opcode (m : IncompleteMessage) (opcode : Nat) : Bool :=
  if m.bytes.length = 0 then
    if opcode = 0x1 then true
    else if opcode = 0x2 then true
    else if opcode = 0x8 then true
    else if opcode = 0x9 then true
    else if opcode = 0xA then true
    else false
  else opcode == 0x0

/-- UTF-8 continuation byte test, `0x80..=0xBF`. -/
def isCont (b : Nat) : Bool :=
  decide (0x80 ≤ b ∧ b < 0xC0)

/-- UTF-8 validity per RFC 3629, modelling the external
`std::str::from_utf8` check used by `Message::from`: rejects stray
continuation bytes, overlong encodings, surrogates and values above
U+10FFFF. -/
def utf8Valid : List Nat → Bool
  | [] => true
  | b :: rest =>
    if b < 0x80 then utf8Valid rest
    else if b < 0xC2 then false
    else if b < 0xE0 then
      match rest with
      | c1 :: r => isCont c1 && utf8Valid r
      | [] => false
    else if b < 0xF0 then
      match rest with
      | c1 :: c2 :: r =>
          (if b = 0xE0 then decide (0xA0 ≤ c1 ∧ c1 < 0xC0)
           else if b = 0xED then decide (0x80 ≤ c1 ∧ c1 < 0xA0)
           else isCont c1) && isCont c2 && utf8Valid r
      | _ => false
    else if b < 0xF5 then
      match rest with
      | c1 :: c2 :: c3 :: r =>
          (if b = 0xF0 then decide (0x90 ≤ c1 ∧ c1 < 0xC0)
           else if b = 0xF4 then decide (0x80 ≤ c1 ∧ c1 < 0x90)
           else isCont c1) && isCont c2 && isCont c3 && utf8Valid r
      | _ => false
    else false

/-- Model of `Message::from` (`src/ws.rs` lines 352-368). -/
def Message.fromBytes (data : List Nat) (opcode : Nat) : Except WsError Message :=
  if opcode = 0x1 then
    if utf8Valid data then .ok (.text data)
    else .error (.websocketError "expected payload to be ut8 encoded")
  else if opcode = 0x2 then .ok (.binary data)
  else .error (.websocketError "Unsupported opcode")

/-- Model of `IncompleteMessage::append_fragment` (`src/ws.rs` lines
331-348), returning the optional completed message and the new
assembler state. -/
def append_fragment (m : IncompleteMessage) (frag : Fragment) :
    Except WsError (Option Message × IncompleteMessage) :=
  if accepts_opcode m frag.opcode then
    let newOp := if m.bytes.length = 0 then frag.opcode else m.opcode
    let newBytes := m.bytes ++ frag.payload
    if frag.is_fin then
      match Message.fromBytes newBytes newOp with
      | .ok msg => .ok (some msg, ⟨newOp, []⟩)
      | .error e => .error e
    else .ok (none, ⟨newOp, newBytes⟩)
  else .error (.websocketError "unexpected opcode")

/-- Feed a list of fragments through `append_fragment` in order,
collecting each call's optional message; the first error aborts. -/
def feedFrags (m : IncompleteMessage) : List Fragment →
    Except WsError (List (Option Message) × IncompleteMessage)
  | [] => .ok ([], m)
  | f :: fs =>
    match append_fragment m f with
    | .error e => .error e
    | .ok (out, m1) =>
      match feedFrags m1 fs with
      | .error e => .error e
      | .ok (outs, m2) => .ok (out :: outs, m2)

/-- Build a data fragment as the parser would hand it over: one header
byte `(fin << 7) | op` followed by the payload, payload offset 1. -/
def mkFrag (fin : Bool) (op : Nat) (payload : List Nat) : Fragment :=
  ⟨((if fin then 128 else 0) + op) :: payload, 1⟩

/-- The fragment sequence for one logical message split into the given
payload pieces: the first fragment carries `op`, the rest are
continuations (opcode 0), and only the last has `fin` set. -/
def buildFrags (op : Nat) : List (List Nat) → List Fragment
  | [] => []
  | [p] => [mkFrag true op p]
  | p :: q :: ps => mkFrag false op p :: buildFrags 0 (q :: ps)

/-- Concatenation of a list of byte lists. -/
def concatBytes : List (List Nat) → List Nat
  | [] => []
  | p :: ps => p ++ concatBytes ps

/-- Header bytes emitted by `Websocket::send` (`src/ws.rs` lines 443-481).
The source declares `let mut header = [0u8, 16];` -- a two-element array
`[0, 16]`, not a 16-byte buffer -- so the branches for payloads of 126
bytes or more slice `header[2..4]` / `header[2..10]` out of bounds and
panic (`none` here).  Only the one-byte-length branch survives. -/
def sendHeader (opcode : Nat) (data : List Nat) : Option (List Nat) :=
  if data.length < 126 then
    some [128 ||| (opcode &&& 0xF), data.length &&& 0x7F]
  else none

/-- The complete wire frame `Websocket::send` would write: header bytes
followed by the payload. -/
def sendFrame (opcode : Nat) (data : List Nat) : Option (List Nat) :=
  match sendHeader opcode data with
  | none => none
  | some hdr => some (hdr ++ data)

/-- Outcome of the post-transport-read processing loop of
`Websocket::read` (`src/ws.rs` lines 396-440).  `finished` reports the
returned messages, the pong frames written while processing, whether the
close flag was set, and the final parser/assembler states. -/
inductive ReadStep where
  | crash : ReadStep
  | protoErr (e : WsError) : ReadStep
  | outOfFuel : ReadStep
  | finished (msgs : List Message) (pongs : List (List Nat)) (closed : Bool)
      (fragSt : List Nat) (msgSt : IncompleteMessage) : ReadStep
deriving DecidableEq, Repr

/-- The `while received.len() > 0` loop of `Websocket::read`: parse one
fragment per iteration, dispatch control frames (close stops processing
and sets the closed flag; ping answers with a pong built by `sendFrame`),
and feed data frames to the message assembler.  Fuel bounds the
iteration count; `wsRead` supplies enough for the loop to finish. -/
def readLoop (fuel : Nat) (fragSt : List Nat) (msgSt : IncompleteMessage)
    (received : List Nat) (msgs : List Message) (pongs : List (List Nat)) : ReadStep :=
  match fuel with
  | 0 => .outOfFuel
  | fuel + 1 =>
    if received.length = 0 then .finished msgs pongs false fragSt msgSt
    else
      match fragAppend fragSt received with
      | .crash => .crash
      | .pending st rest => readLoop fuel st msgSt rest msgs pongs
      | .done frag rest =>
        if frag.is_control_frame then
          if frag.opcode = 0x8 then
            let m :=
              if 2 ≤ frag.payload.length then
                Message.close (some ((frag.payload.getD 0 0) * 256 + frag.payload.getD 1 0))
              else Message.close none
            .finished (msgs ++ [m]) pongs true [] msgSt
          else if frag.opcode = 0x9 then
            match sendFrame 0xA frag.payload with
            | none => .crash
            | some pong => readLoop fuel [] msgSt rest msgs (pongs ++ [pong])
          else readLoop fuel [] msgSt rest msgs pongs
        else
          match append_fragment msgSt frag with
          | .error e => .protoErr e
          | .ok (some m, msgSt1) => readLoop fuel [] msgSt1 rest (msgs ++ [m]) pongs
          | .ok (none, msgSt1) => readLoop fuel [] msgSt1 rest msgs pongs

/-- One `Websocket::read` processing pass over the bytes obtained from
the transport. -/
def wsRead (fragSt : List Nat) (msgSt : IncompleteMessage) (received : List Nat) : ReadStep :=
  readLoop (received.length + 1) fragSt msgSt received [] []

/-- Rotate a 32-bit word left by `n` bits. -/
def rotl32 (n x : Nat) : Nat :=
  ((x <<< n) ||| (x >>> (32 - n))) &&& 0xFFFFFFFF

/-- SHA-1 round constant for round `t`. -/
def sha1K (t : Nat) : Nat :=
  if t < 20 then 0x5A827999
  else if t < 40 then 0x6ED9EBA1
  else if t < 60 then 0x8F1BBCDC
  else 0xCA62C1D6

/-- SHA-1 round function for round `t`. -/
def sha1F (t b c d : Nat) : Nat :=
  if t < 20 then (b &&& c) ||| ((b ^^^ 0xFFFFFFFF) &&& d)
  else if t < 40 then b ^^^ c ^^^ d
  else if t < 60 then (b &&& c) ||| (b &&& d) ||| (c &&& d)
  else b ^^^ c ^^^ d

/-- SHA-1 message padding: append `0x80`, zeros, and the 64-bit big-endian
bit length, up to a multiple of 64 bytes. -/
def sha1Pad (msg : List Nat) : List Nat :=
  let zeros := (64 - (msg.length + 9) % 64) % 64
  msg ++ [0x80] ++ List.replicate zeros 0 ++
    (List.range 8).map (fun i => ((msg.length * 8) >>> (8 * (7 - i))) &&& 255)

/-- Big-endian 32-bit word at byte offset `i`. -/
def beWord (bs : List Nat) (i : Nat) : Nat :=
  (bs.getD i 0) <<< 24 ||| (bs.getD (i + 1) 0) <<< 16 |||
    (bs.getD (i + 2) 0) <<< 8 ||| bs.getD (i + 3) 0

/-- The 16 initial schedule words of a 64-byte block. -/
def blockWords (block : List Nat) : List Nat :=
  (List.range 16).map (fun j => beWord block (4 * j))

/-- Extend 16 schedule words to 80:
`W[t] = rotl1 (W[t-3] xor W[t-8] xor W[t-14] xor W[t-16])`. -/
def extendWords (w0 : List Nat) : List Nat :=
  (List.range 64).foldl
    (fun w _ =>
      let n := w.length
      w ++ [rotl32 1 ((w.getD (n - 3) 0) ^^^ (w.getD (n - 8) 0) ^^^
        (w.getD (n - 14) 0) ^^^ (w.getD (n - 16) 0))])
    w0

/-- One SHA-1 round on the five-word working state. -/
def sha1Round (w : List Nat) (st : Nat × Nat × Nat × Nat × Nat) (t : Nat) :
    Nat × Nat × Nat × Nat × Nat :=
  let (a, b, c, d, e) := st
  let temp := (rotl32 5 a + sha1F t b c d + e + sha1K t + w.getD t 0) &&& 0xFFFFFFFF
  (temp, a, rotl32 30 b, c, d)

/-- Compress one 64-byte block into the running hash state. -/
def sha1Block (h : Nat × Nat × Nat × Nat × Nat) (block : List Nat) :
    Nat × Nat × Nat × Nat × Nat :=
  let w := extendWords (blockWords block)
  let (a, b, c, d, e) := (List.range 80).foldl (sha1Round w) h
  let (h0, h1, h2, h3, h4) := h
  ((h0 + a) &&& 0xFFFFFFFF, (h1 + b) &&& 0xFFFFFFFF, (h2 + c) &&& 0xFFFFFFFF,
    (h3 + d) &&& 0xFFFFFFFF, (h4 + e) &&& 0xFFFFFFFF)

/-- Big-endian bytes of a 32-bit word. -/
def wordBE (h : Nat) : List Nat :=
  [(h >>> 24) &&& 255, (h >>> 16) &&& 255, (h >>> 8) &&& 255, h &&& 255]

/-- SHA-1 digest (20 bytes) of a byte list, per RFC 3174; models the
external `sha1` crate used by `upgrade` in `src/ws.rs`. -/
def sha1 (msg : List Nat) : List Nat :=
  let padded := sha1Pad msg
  let blocks := (List.range (padded.length / 64)).map
    (fun i => (padded.drop (64 * i)).take 64)
  let (h0, h1, h2, h3, h4) :=
    blocks.foldl sha1Block (0x67452301, 0xEFCDAB89, 0x98BADCFE, 0x10325476, 0xC3D2E1F0)
  wordBE h0 ++ wordBE h1 ++ wordBE h2 ++ wordBE h3 ++ wordBE h4

/-- Model of `base64_convert` (`src/ws.rs` lines 34-49). -/
def base64_convert (block : Nat) : Char :=
  if block < 26 then Char.ofNat (65 + block)
  else if block < 52 then Char.ofNat (97 + block - 26)
  else if block < 62 then Char.ofNat (48 + block - 52)
  else if block = 62 then '+'
  else '/'

/-- The four 6-bit groups of one base64 input group, with the `u8` left
shifts wrapped at 255 as in the source. -/
def b64group (byte0 byte1 byte2 : Nat) : Nat × Nat × Nat × Nat :=
  ((byte0 >>> 2) &&& 0x3F,
   (((byte0 <<< 4) &&& 255) ||| (byte1 >>> 4)) &&& 0x3F,
   (((byte1 <<< 2) &&& 255) ||| (byte2 >>> 6)) &&& 0x3F,
   byte2 &&& 0x3F)

/-- The character groups produced by the `step_by(3)` loop of
`hash_to_base64`: a final 1-byte group yields two characters plus two
padding characters, a final 2-byte group three characters plus one. -/
def b64chunks : List Nat → List Char
  | [] => []
  | [b0] =>
    match b64group b0 0 0 with
    | (g0, g1, _, _) => [base64_convert g0, base64_convert g1, '=', '=']
  | [b0, b1] =>
    match b64group b0 b1 0 with
    | (g0, g1, g2, _) => [base64_convert g0, base64_convert g1, base64_convert g2, '=']
  | b0 :: b1 :: b2 :: rest =>
    match b64group b0 b1 b2 with
    | (g0, g1, g2, g3) =>
      base64_convert g0 :: base64_convert g1 :: base64_convert g2 :: base64_convert g3 ::
        b64chunks rest

/-- Model of `hash_to_base64` (`src/ws.rs` lines 51-99).  The source
`assert!(bytes.len() == 20)` is modelled by returning `none` for other
lengths. -/
def hash_to_base64 (bytes : List Nat) : Option String :=
  if bytes.length = 20 then some (String.mk (b64chunks bytes)) else none

/-- UTF-8 bytes of the fixed handshake GUID from `upgrade`. -/
def guidBytes : List Nat :=
  "258EAFA5-E914-47DA-95CA-C5AB0DC85B11".data.map Char.toNat

/-- The accept-token computation of `upgrade` (`src/ws.rs` lines
101-122): SHA-1 of nonce bytes followed by the GUID bytes, then the
repository's base64 encoder. -/
def secWebSocketAccept (key : List Nat) : Option String :=
  hash_to_base64 (sha1 (key ++ guidBytes))

/-- The sample client nonce from RFC 6455. -/
def sampleNonce : String := "dGhlIHNhbXBsZSBub25jZQ=="

/-- The accept token the sample nonce must produce. -/
def sampleAccept : String := "s3pPLMBiTxaQ9kYGzzhZRbK+xOo="

/-- Model of the `Websocket` session fields relevant to close handling. -/
structure Session where
  closed : Bool
  incomplete_fragment : List Nat
  incomplete_message : IncompleteMessage
deriving DecidableEq, Repr

/-- `Websocket::is_closed`. -/
def Session.is_closed (s : Session) : Bool := s.closed

/-- The transport is modelled by a script of `write` call results: `none`
is an I/O error, `some n` a (possibly short) write of `n` bytes.  This
models the source's `while` retry loop; an exhausted script stands for a
transport that produces no further results and is reported as an I/O
error. -/
def writeAll : List (Option Nat) → List Nat → List (Option Nat) × Except WsError Unit
  | conn, [] => (conn, .ok ())
  | [], _ => ([], .error .ioError)
  | none :: conn, _ => (conn, .error .ioError)
  | some n :: conn, data => writeAll conn (data.drop n)

/-- `Websocket::send` against a scripted transport: build the header
(`none` = the panic on payloads of 126 bytes or more), write it, then
write the payload; the first write error propagates. -/
def sendWrite (conn : List (Option Nat)) (opcode : Nat) (data : List Nat) :
    Option (List (Option Nat) × Except WsError Unit) :=
  match sendHeader opcode data with
  | none => none
  | some hdr =>
    match writeAll conn hdr with
    | (conn1, .error e) => some (conn1, .error e)
    | (conn1, .ok _) => some (writeAll conn1 data)

/-- The close-frame payload of `Websocket::close`: the big-endian
`to_be_bytes` of the status code when present, empty otherwise. -/
def closePayload : Option Nat → List Nat
  | some c => [(c >>> 8) &&& 255, c &&& 255]
  | none => []

/-- Model of `Websocket::close` (`src/ws.rs` lines 491-498): the closed
flag is set first, then a close frame (opcode 8, optional big-endian
status code) is sent; the send's outcome is returned alongside the new
session and transport states. -/
def wsClose (s : Session) (conn : List (Option Nat)) (code : Option Nat) :
    Option (Session × List (Option Nat) × Except WsError Unit) :=
  let s1 := { s with closed := true }
  match sendWrite conn 8 (closePayload code) with
  | none => none
  | some (conn1, r) => some (s1, conn1, r)

/-! ### Theorems -/

/-- Helper: unmasking with the same key twice, starting at the same index,
is the identity. -/
theorem maskBytes_involutive (mask : List Nat) :
    ∀ (i : Nat) (l : List Nat), maskBytes mask i (maskBytes mask i l) = l
  | _, [] => rfl
  | i, b :: l => by
    simp [maskBytes, maskBytes_involutive mask (i + 1) l, Nat.xor_cancel_right]

/-- C7: the XOR masking transform performed by the parser's unmasking
step is an involution: applying it twice to any byte sequence with any
4-byte key returns the original sequence. -/
theorem mask_involution (mask l : List Nat) (_hm : mask.length = 4)
    (_hmask : ∀ b ∈ mask, b < 256) (_hl : ∀ b ∈ l, b < 256) :
    maskBytes mask 0 (maskBytes mask 0 l) = l :=
  maskBytes_involutive mask 0 l

/-- Witness for C7 at a concrete payload and key. -/
theorem mask_involution_witness :
    maskBytes [1, 2, 3, 4] 0 (maskBytes [1, 2, 3, 4] 0 [5, 6, 7, 8, 9]) = [5, 6, 7, 8, 9] :=
  mask_involution [1, 2, 3, 4] [5, 6, 7, 8, 9] (by decide) (by decide) (by decide)

/-- C1: the encode-then-decode round trip fails at payload length 0, one
of the lengths the claim quantifies over: `Websocket::send` emits the
frame `[0x82, 0x00]`, but `IncompleteFragment::append` panics on it
because its `assert!(self.bytes.len() < end_of_fragment)` is violated
for an empty payload. -/
theorem frame_roundtrip_empty_payload_crash :
    sendFrame 2 [] = some [130, 0] ∧ fragAppend [] [130, 0] = FragStep.crash :=
  ⟨rfl, rfl⟩

/-- C2: with an empty parser state and the non-empty input slice `[0x81]`
(one byte of the two-byte minimum header), `IncompleteFragment::append`
panics -- `try_append_nbytes` indexes past the end of the slice --
instead of consuming the byte and returning `None`. -/
theorem fragAppend_partial_input_crash : fragAppend [] [129] = FragStep.crash :=
  rfl

/-- C3: `Websocket::send` panics for any payload of 126 bytes or more:
`header` is the two-element array `[0u8, 16]`, so slicing `header[2..4]`
for the extended length is out of bounds.  No extended-length frame is
ever emitted. -/
theorem send_extended_length_crash : sendFrame 1 (List.replicate 126 0) = none := by
  simp [sendFrame, sendHeader]

set_option maxRecDepth 100000 in
/-- C8: a complete close frame with empty payload (`[0x88, 0x00]`) never
reaches the close handling in `Websocket::read`: the frame parser panics
on its own `assert!(self.bytes.len() < end_of_fragment)`, so no
`Close(None)` message is produced. -/
theorem read_close_empty_payload_crash :
    wsRead [] ⟨0, []⟩ [136, 0] = ReadStep.crash := by
  decide

set_option maxRecDepth 100000 in
/-- C9: a complete ping frame with a 126-byte payload is parsed, but the
pong answer goes through `Websocket::send`, which panics on its
two-element `header` array for payloads of 126 bytes or more -- no pong
is emitted. -/
theorem read_ping_large_payload_crash :
    wsRead [] ⟨0, []⟩ ([137, 126, 0, 126] ++ List.replicate 126 65) = ReadStep.crash := by
  decide

set_option maxRecDepth 100000 in
/-- Close frames with a two-byte payload do decode into a status code:
`[0x88, 0x02, 0x03, 0xE8]` yields `Close(Some 1000)`, sets the closed
flag, and stops the read cycle. -/
theorem read_close_1000 :
    wsRead [] ⟨0, []⟩ [136, 2, 3, 232] =
      ReadStep.finished [Message.close (some 1000)] [] true [] ⟨0, []⟩ := by
  decide

set_option maxRecDepth 100000 in
/-- A small ping is answered by a byte-identical pong frame and yields no
message. -/
theorem read_ping_small :
    wsRead [] ⟨0, []⟩ [137, 2, 104, 105] =
      ReadStep.finished [] [[138, 2, 104, 105]] false [] ⟨0, []⟩ := by
  decide

/-- A complete unfragmented text frame delivered in one piece round-trips
through the parser. -/
theorem fragAppend_small_text :
    fragAppend [] [129, 1, 65] = FragStep.done ⟨[129, 1, 65], 2⟩ [] :=
  rfl

/-- A masked frame is unmasked in place: mask `[1, 2, 3, 4]` applied to
the single masked payload byte `0x40` yields `0x41`. -/
theorem fragAppend_masked :
    fragAppend [] [129, 129, 1, 2, 3, 4, 64] =
      FragStep.done ⟨[129, 129, 1, 2, 3, 4, 65], 6⟩ [] :=
  rfl

/-- C10: `Websocket::close` sets the closed flag before attempting any
transport write, so whenever the call returns -- including with an
`IoError` from a failed write -- the resulting session reports
`is_closed() = true`. -/
theorem close_sets_closed_flag (s : Session) (conn : List (Option Nat))
    (code : Option Nat) (s2 : Session) (conn2 : List (Option Nat))
    (r : Except WsError Unit)
    (h : wsClose s conn code = some (s2, conn2, r)) :
    s2.is_closed = true := by
  unfold wsClose at h
  rcases hsw : sendWrite conn 8 (closePayload code) with _ | ⟨conn1, r1⟩ <;>
    simp only [hsw] at h
  · exact absurd h (by simp)
  · simp only [Option.some.injEq, Prod.mk.injEq] at h
    obtain ⟨h1, -, -⟩ := h
    subst h1
    rfl

/-- Witness for C10: closing over a transport whose first write fails
still leaves the session closed, while `close` itself returns the I/O
error. -/
theorem close_sets_closed_flag_witness :
    Session.is_closed ⟨true, [], ⟨0, []⟩⟩ = true :=
  close_sets_closed_flag ⟨false, [], ⟨0, []⟩⟩ [none] (some 1000)
    ⟨true, [], ⟨0, []⟩⟩ [] (Except.error .ioError) rfl

/-- Helper: `Message::from` never produces the "unexpected opcode" error;
its failures are the UTF-8 error and the unsupported-opcode error. -/
theorem fromBytes_ne_unexpected (d : List Nat) (op : Nat) :
    Message.fromBytes d op ≠ Except.error (.websocketError "unexpected opcode") := by
  unfold Message.fromBytes
  split
  · split <;> simp
  · split <;> simp

/-- Helper: characterization of `IncompleteMessage::accepts_opcode`. -/
theorem accepts_opcode_iff (m : IncompleteMessage) (op : Nat) :
    accepts_opcode m op = true ↔
      ((m.bytes = [] ∧ (op = 1 ∨ op = 2 ∨ op = 8 ∨ op = 9 ∨ op = 10)) ∨
        (m.bytes ≠ [] ∧ op = 0)) := by
  unfold accepts_opcode
  rcases eq_or_ne m.bytes ([] : List Nat) with hb | hb
  · simp only [hb, List.length_nil, if_pos rfl]
    by_cases h1 : op = 1 <;> by_cases h2 : op = 2 <;> by_cases h8 : op = 8 <;>
      by_cases h9 : op = 9 <;> by_cases hA : op = 10 <;>
      simp [h1, h2, h8, h9, hA]
  · have hb0 : ¬(m.bytes.length = 0) := by simpa [List.length_eq_zero] using hb
    simp [hb0, hb]

/-- Helper: an accepted fragment never yields the unexpected-opcode
error. -/
theorem appendFragment_not_unexpected (m : IncompleteMessage) (f : Fragment)
    (hacc : accepts_opcode m f.opcode = true) :
    append_fragment m f ≠ Except.error (.websocketError "unexpected opcode") := by
  unfold append_fragment
  rw [if_pos hacc]
  cases hfb : Message.fromBytes (m.bytes ++ f.payload)
      (if m.bytes.length = 0 then f.opcode else m.opcode) with
  | ok msg =>
    cases hf : f.is_fin
    · simp [hf]
    · simp only [hf, if_true, hfb]
      simp
  | error e =>
    cases hf : f.is_fin
    · simp [hf]
    · intro h
      simp only [hf, if_true, hfb] at h
      have he : e = .websocketError "unexpected opcode" := by injection h
      exact fromBytes_ne_unexpected _ _ (by rw [hfb, he])

/-- C4 counterexample: a ping fragment (opcode `0x9`, not in `{0x1, 0x2}`)
arriving with no message in progress is accepted by
`IncompleteMessage::append_fragment` -- the call returns `Ok(None)`
rather than failing with the unexpected-opcode error. -/
theorem appendFragment_control_opcode_accepted :
    append_fragment ⟨0, []⟩ (mkFrag false 9 []) = Except.ok (none, ⟨9, []⟩) ∧
      (mkFrag false 9 []).opcode ≠ 1 ∧ (mkFrag false 9 []).opcode ≠ 2 :=
  ⟨rfl, by decide, by decide⟩

/-- C4 amended: `append_fragment` fails with the unexpected-opcode error
exactly when either no message is in progress and the fragment's opcode
is outside `{0x1, 0x2, 0x8, 0x9, 0xA}`, or a message is in progress and
the opcode is not the continuation code `0x0`. -/
theorem appendFragment_unexpected_opcode_iff (m : IncompleteMessage) (f : Fragment) :
    append_fragment m f = Except.error (.websocketError "unexpected opcode") ↔
      ((m.bytes = [] ∧ f.opcode ≠ 0x1 ∧ f.opcode ≠ 0x2 ∧ f.opcode ≠ 0x8 ∧
          f.opcode ≠ 0x9 ∧ f.opcode ≠ 0xA) ∨
        (m.bytes ≠ [] ∧ f.opcode ≠ 0x0)) := by
  cases hacc : accepts_opcode m f.opcode with
  | false =>
    have hres : append_fragment m f = Except.error (.websocketError "unexpected opcode") := by
      unfold append_fragment
      simp [hacc]
    have hnot : ¬((m.bytes = [] ∧ (f.opcode = 1 ∨ f.opcode = 2 ∨ f.opcode = 8 ∨
        f.opcode = 9 ∨ f.opcode = 10)) ∨ (m.bytes ≠ [] ∧ f.opcode = 0)) := by
      rw [← accepts_opcode_iff]
      simp [hacc]
    rw [hres]
    simp only [true_iff]
    rcases eq_or_ne m.bytes ([] : List Nat) with hb | hb
    · left
      refine ⟨hb, ?_, ?_, ?_, ?_, ?_⟩ <;> intro hop <;>
        exact hnot (Or.inl ⟨hb, by simp [hop]⟩)
    · right
      exact ⟨hb, fun hop => hnot (Or.inr ⟨hb, hop⟩)⟩
  | true =>
    have hne := appendFragment_not_unexpected m f hacc
    have hrhs := (accepts_opcode_iff m f.opcode).mp hacc
    refine iff_of_false hne ?_
    rcases hrhs with ⟨hb, hops⟩ | ⟨hb, hop⟩
    · rintro (⟨-, h1, h2, h8, h9, hA⟩ | ⟨hb2, -⟩)
      · rcases hops with h | h | h | h | h
        · exact h1 h
        · exact h2 h
        · exact h8 h
        · exact h9 h
        · exact hA h
      · exact hb2 hb
    · rintro (⟨hb2, -⟩ | ⟨-, h0⟩)
      · exact hb hb2
      · exact h0 hop

/-- Helper: the base64 loop emits four characters per started 3-byte
group. -/
theorem b64chunks_length : ∀ l : List Nat, (b64chunks l).length = ((l.length + 2) / 3) * 4
  | [] => by simp [b64chunks]
  | [_] => by simp [b64chunks, b64group]
  | [_, _] => by simp [b64chunks, b64group]
  | _ :: _ :: _ :: rest => by
    simp only [b64chunks, b64group, List.length_cons, b64chunks_length rest]
    omega

set_option maxRecDepth 1000000 in
/-- C6: the repository's handshake pipeline -- SHA-1 over nonce bytes
followed by the fixed GUID, then the hand-rolled base64 encoder --
yields a 28-character token for every 20-byte digest, and maps the RFC
6455 sample nonce to the expected accept token. -/
theorem handshake_accept_props :
    (∀ bs : List Nat, bs.length = 20 →
      ∃ s, hash_to_base64 bs = some s ∧ s.length = 28) ∧
    secWebSocketAccept (sampleNonce.data.map Char.toNat) = some sampleAccept := by
  constructor
  · intro bs h
    refine ⟨String.mk (b64chunks bs), ?_, ?_⟩
    · simp [hash_to_base64, h]
    · show (b64chunks bs).length = 28
      rw [b64chunks_length bs, h]
  · rfl

/-- Witness for C6: an all-zero 20-byte digest also encodes to 28
characters. -/
theorem handshake_accept_witness :
    ∃ s, hash_to_base64 (List.replicate 20 0) = some s ∧ s.length = 28 :=
  handshake_accept_props.1 (List.replicate 20 0) (by simp)

/-- Helper: appending a continuation fragment (opcode 0) while bytes are
already accumulated. -/
theorem append_cont_frag (mop : Nat) (acc p : List Nat) (fin : Bool) (hacc : acc ≠ []) :
    append_fragment ⟨mop, acc⟩ (mkFrag fin 0 p) =
      if fin then
        (match Message.fromBytes (acc ++ p) mop with
         | .ok msg => Except.ok (some msg, ⟨mop, []⟩)
         | .error e => Except.error e)
      else Except.ok (none, ⟨mop, acc ++ p⟩) := by
  have hlen : ¬(acc.length = 0) := fun h => hacc (List.length_eq_zero.mp h)
  cases fin
  · have hop : (mkFrag false 0 p).opcode = 0 := by
      show (0 : Nat) &&& 15 = 0
      rfl
    have hfin : (mkFrag false 0 p).is_fin = false := by
      show ((0 : Nat) >>> 7 != 0) = false
      rfl
    have hpay : (mkFrag false 0 p).payload = p := rfl
    simp [append_fragment, accepts_opcode, hop, hfin, hpay, hlen]
  · have hop : (mkFrag true 0 p).opcode = 0 := by
      show (128 : Nat) &&& 15 = 0
      rfl
    have hfin : (mkFrag true 0 p).is_fin = true := by
      show ((128 : Nat) >>> 7 != 0) = true
      rfl
    have hpay : (mkFrag true 0 p).payload = p := rfl
    simp [append_fragment, accepts_opcode, hop, hfin, hpay, hlen]

/-- Helper: appending a first fragment (opcode text or binary) to an
empty assembler state. -/
theorem append_first_frag (op : Nat) (p : List Nat) (fin : Bool) (mop : Nat)
    (hop : op = 1 ∨ op = 2) :
    append_fragment ⟨mop, []⟩ (mkFrag fin op p) =
      if fin then
        (match Message.fromBytes p op with
         | .ok msg => Except.ok (some msg, ⟨op, []⟩)
         | .error e => Except.error e)
      else Except.ok (none, ⟨op, p⟩) := by
  rcases hop with rfl | rfl <;> cases fin
  · have h1 : (mkFrag false 1 p).opcode = 1 := by
      show (1 : Nat) &&& 15 = 1
      rfl
    have h2 : (mkFrag false 1 p).is_fin = false := by
      show ((1 : Nat) >>> 7 != 0) = false
      rfl
    have h3 : (mkFrag false 1 p).payload = p := rfl
    simp [append_fragment, accepts_opcode, h1, h2, h3]
  · have h1 : (mkFrag true 1 p).opcode = 1 := by
      show (129 : Nat) &&& 15 = 1
      rfl
    have h2 : (mkFrag true 1 p).is_fin = true := by
      show ((129 : Nat) >>> 7 != 0) = true
      rfl
    have h3 : (mkFrag true 1 p).payload = p := rfl
    simp [append_fragment, accepts_opcode, h1, h2, h3]
  · have h1 : (mkFrag false 2 p).opcode = 2 := by
      show (2 : Nat) &&& 15 = 2
      rfl
    have h2 : (mkFrag false 2 p).is_fin = false := by
      show ((2 : Nat) >>> 7 != 0) = false
      rfl
    have h3 : (mkFrag false 2 p).payload = p := rfl
    simp [append_fragment, accepts_opcode, h1, h2, h3]
  · have h1 : (mkFrag true 2 p).opcode = 2 := by
      show (130 : Nat) &&& 15 = 2
      rfl
    have h2 : (mkFrag true 2 p).is_fin = true := by
      show ((130 : Nat) >>> 7 != 0) = true
      rfl
    have h3 : (mkFrag true 2 p).payload = p := rfl
    simp [append_fragment, accepts_opcode, h1, h2, h3]

/-- Helper: once bytes are accumulated, a continuation run (all opcode 0,
last fragment final) reassembles to the accumulated prefix plus the
concatenated continuation payloads. -/
theorem feedFrags_cont (mop : Nat) :
    ∀ (ps : List (List Nat)) (acc : List Nat), acc ≠ [] → ps ≠ [] →
      feedFrags ⟨mop, acc⟩ (buildFrags 0 ps) =
        match Message.fromBytes (acc ++ concatBytes ps) mop with
        | .ok msg =>
            Except.ok (List.replicate (ps.length - 1) none ++ [some msg], ⟨mop, []⟩)
        | .error e => Except.error e
  | [], _, _, hps => absurd rfl hps
  | [p], acc, hacc, _ => by
    simp only [buildFrags, feedFrags]
    rw [append_cont_frag mop acc p true hacc]
    simp only [concatBytes, List.append_nil, if_true]
    cases hfb : Message.fromBytes (acc ++ p) mop <;> simp [hfb, feedFrags]
  | p :: q :: t, acc, hacc, _ => by
    have hacc2 : acc ++ p ≠ [] := fun h => hacc (List.append_eq_nil.mp h).1
    have ih := feedFrags_cont mop (q :: t) (acc ++ p) hacc2 (by simp)
    rw [List.append_assoc] at ih
    simp only [buildFrags, feedFrags]
    rw [append_cont_frag mop acc p false hacc]
    simp only [Bool.false_eq_true, if_false]
    rw [ih]
    have hc : concatBytes (p :: q :: t) = p ++ concatBytes (q :: t) := rfl
    rw [hc]
    cases hfb : Message.fromBytes (acc ++ (p ++ concatBytes (q :: t))) mop with
    | error e => simp [hfb]
    | ok msg => simp [hfb, List.replicate_succ]

/-- C5 counterexample: splitting a one-byte text message into an empty
first fragment and a final continuation fragment carrying the byte makes
reassembly fail: the empty first fragment leaves the accumulation buffer
empty, so the assembler treats the continuation as if no message were in
progress and rejects it with the unexpected-opcode error instead of
producing the one-byte text message. -/
theorem reassembly_empty_first_fragment_error :
    feedFrags ⟨0, []⟩ (buildFrags 1 [[], [65]]) =
      Except.error (.websocketError "unexpected opcode") :=
  rfl

/-- C5 amended: provided the first fragment's payload is non-empty (or
there is only one fragment), feeding the fragment sequence built from
payload pieces `ps` -- first opcode 0x1 or 0x2, then continuations, only
the last fragment final -- yields `None` for each of the first `N - 1`
calls and exactly one final message equal to the concatenation of the
pieces (UTF-8 text for opcode 0x1, given the concatenation is valid
UTF-8; raw bytes for 0x2). -/
theorem reassembly_concat_amended (op : Nat) (ps : List (List Nat))
    (hop : op = 1 ∨ op = 2) (hne : ps ≠ [])
    (hfirst : ps.length = 1 ∨ ps.headD [] ≠ [])
    (hutf : op = 1 → utf8Valid (concatBytes ps) = true) :
    feedFrags ⟨0, []⟩ (buildFrags op ps) =
      Except.ok (List.replicate (ps.length - 1) none ++
        [some (if op = 1 then Message.text (concatBytes ps)
               else Message.binary (concatBytes ps))],
        ⟨op, []⟩) := by
  cases ps with
  | nil => exact absurd rfl hne
  | cons p t =>
    cases t with
    | nil =>
      simp only [buildFrags, feedFrags]
      rw [append_first_frag op p true 0 hop]
      simp only [concatBytes, List.append_nil, if_true] at hutf ⊢
      rcases hop with rfl | rfl
      · have hu := hutf rfl
        simp [Message.fromBytes, hu, feedFrags]
      · simp [Message.fromBytes, feedFrags]
    | cons q t2 =>
      have hp : p ≠ [] := by
        rcases hfirst with h | h
        · simp at h
        · simpa using h
      simp only [buildFrags, feedFrags]
      rw [append_first_frag op p false 0 hop]
      simp only [Bool.false_eq_true, if_false]
      rw [feedFrags_cont op (q :: t2) p hp (by simp)]
      have hc : concatBytes (p :: q :: t2) = p ++ concatBytes (q :: t2) := rfl
      rw [hc] at hutf ⊢
      rcases hop with rfl | rfl
      · have hu := hutf rfl
        simp [Message.fromBytes, hu, List.replicate_succ]
      · simp [Message.fromBytes, List.replicate_succ]

/-- Witness for C5 at a concrete two-piece binary message. -/
theorem reassembly_concat_witness :
    feedFrags ⟨0, []⟩ (buildFrags 2 [[65], [66]]) =
      Except.ok ([none, some (Message.binary [65, 66])], ⟨2, []⟩) := by
  have h := reassembly_concat_amended 2 [[65], [66]] (Or.inr rfl) (by simp)
    (Or.inr (by simp)) (by simp)
  simpa using h
